import Mathlib

/-
Verification of the gpu-metrics-telemetry pipeline against its specification.

The development shallowly embeds the Go sources:
  internal/broker/broker.go      (PublishBatch, Subscribe failure path, removeSubscriber,
                                  dispatcher round-robin scan)
  internal/storage/memory.go     (MemoryStore.SaveTelemetry, MemoryStore.QueryTelemetry)
  cmd/collector (main.go)        (runCollectorLoop receive step, validate, toModel,
                                  flush worker pool)
  cmd/api-gateway/server.go      (telemetry read endpoint handler)

Modelling conventions:
  - Go channels of capacity c are FIFO lists; a non-blocking send succeeds exactly
    when the list is shorter than c.
  - time.Time values and protobuf timestamps are integers (Unix nanoseconds);
    t.Before(u) is t < u and t.After(u) is u < t.  A nil *timestamppb.Timestamp is
    Option.none.
  - float64 metric values are never inspected by any verified property, so the
    metric map is an opaque type parameter mu.
  - Prometheus counters and gauges are natural-number fields of explicit records.
-/

namespace GpuTelemetry

/-- Status string of a PublishResponse; broker.go only ever produces these two values. -/
inductive Status where
  | OK
  | BACKPRESSURE
deriving DecidableEq, Repr

/-- Wire record telemetryv1.TelemetryData: producer_id, host_id, gpu_id, a nil-able
timestamp ts, and a metric map (opaque, type parameter mu). -/
structure TelemetryData (mu : Type) where
  producerId : String
  hostId : String
  gpuId : String
  ts : Option Int
  metrics : mu
deriving DecidableEq, Repr

/-- The broker counters and the subscriber gauge registered in broker.go:
messages_enqueued_total, messages_delivered_total, backpressure_events_total,
messages_requeued_total, subscribers.  (queue_depth is sampled from the queue
length and carries no state of its own.) -/
structure BrokerMetrics where
  enqueued : Nat
  delivered : Nat
  backpressureEvents : Nat
  requeued : Nat
  subscribersGauge : Nat
deriving DecidableEq, Repr

/-- A broker subscriber: unique id plus its bounded buffer channel ch
(contents as a FIFO list; capacity subBuf is checked at each send). -/
structure Subscriber (mu : Type) where
  id : String
  ch : List (TelemetryData mu)
deriving DecidableEq, Repr

/-- Result of Server.PublishBatch: the inbound queue afterwards, the accepted
count, the response status, and the metric state afterwards. -/
structure PublishResult (mu : Type) where
  inbound : List (TelemetryData mu)
  accepted : Nat
  status : Status
  metrics : BrokerMetrics
deriving DecidableEq, Repr

/-- The item loop of Server.PublishBatch (broker.go): for each item in order,
a non-blocking send on the inbound channel; on success increment accepted and
messages_enqueued_total; on the first full queue increment
backpressure_events_total and return (accepted, BACKPRESSURE). -/
def publishLoop {mu : Type} (cap : Nat) :
    List (TelemetryData mu) → List (TelemetryData mu) → Nat → BrokerMetrics →
    PublishResult mu
  | inbound, [], accepted, mets => ⟨inbound, accepted, Status.OK, mets⟩
  | inbound, item :: rest, accepted, mets =>
    if inbound.length < cap then
      publishLoop cap (inbound ++ [item]) rest (accepted + 1)
        { mets with enqueued := mets.enqueued + 1 }
    else
      ⟨inbound, accepted, Status.BACKPRESSURE,
        { mets with backpressureEvents := mets.backpressureEvents + 1 }⟩

/-- Server.PublishBatch: a nil request is a synchronous protocol error; otherwise
run the item loop with accepted starting at 0. -/
def publishBatch {mu : Type} (cap : Nat) (inbound : List (TelemetryData mu))
    (req : Option (List (TelemetryData mu))) (mets : BrokerMetrics) :
    Except String (PublishResult mu) :=
  match req with
  | none => Except.error "nil request"
  | some items => Except.ok (publishLoop cap inbound items 0 mets)

/-- The accepted count of publishLoop is the length of the enqueued prefix:
the loop appends exactly items.take k to the queue for some k, adds k to the
running accepted counter, answers OK exactly when k covers the whole batch and
BACKPRESSURE only when it does not. -/
theorem publishLoop_characterisation {mu : Type} (cap : Nat) :
    ∀ (items inbound : List (TelemetryData mu)) (acc : Nat) (mets : BrokerMetrics),
    ∃ k, k ≤ items.length ∧
      (publishLoop cap inbound items acc mets).inbound = inbound ++ items.take k ∧
      (publishLoop cap inbound items acc mets).accepted = acc + k ∧
      ((publishLoop cap inbound items acc mets).status = Status.OK ↔ k = items.length) ∧
      ((publishLoop cap inbound items acc mets).status = Status.BACKPRESSURE →
        k < items.length) := by
  intro items
  induction items with
  | nil =>
    intro inbound acc mets
    refine ⟨0, by simp [publishLoop]⟩
  | cons item rest ih =>
    intro inbound acc mets
    by_cases h : inbound.length < cap
    · obtain ⟨k, hk, hq, ha, hok, hbp⟩ :=
        ih (inbound ++ [item]) (acc + 1) { mets with enqueued := mets.enqueued + 1 }
      refine ⟨k + 1, ?_, ?_, ?_, ?_, ?_⟩
      · simpa using Nat.succ_le_succ hk
      · simp only [publishLoop, if_pos h]
        rw [hq]
        simp
      · simp only [publishLoop, if_pos h]
        rw [ha]
        omega
      · simp only [publishLoop, if_pos h]
        rw [hok]
        simp only [List.length_cons]
        omega
      · simp only [publishLoop, if_pos h]
        intro hs
        have := hbp hs
        simp only [List.length_cons]
        omega
    · refine ⟨0, by simp, ?_, ?_, ?_, ?_⟩
      · simp [publishLoop, if_neg h]
      · simp [publishLoop, if_neg h]
      · simp [publishLoop, if_neg h]
      · simp [publishLoop, if_neg h]

/-- C1: for every non-nil batch, PublishBatch enqueues items into the inbound queue
in submission order, stopping at the first item that cannot be enqueued immediately;
accepted is the count enqueued; status is OK iff every item was enqueued (an empty
batch returns (0, OK)); on BACKPRESSURE accepted is strictly below the batch length
and items [accepted..end) were not enqueued. -/
theorem publishBatch_accept_prefix_spec {mu : Type} (cap : Nat)
    (q items : List (TelemetryData mu)) (mets : BrokerMetrics) :
    let r := publishLoop cap q items 0 mets
    publishBatch cap q (some items) mets = Except.ok r ∧
    r.inbound = q ++ items.take r.accepted ∧
    r.accepted ≤ items.length ∧
    (r.status = Status.OK ↔ r.accepted = items.length) ∧
    (r.status = Status.BACKPRESSURE → r.accepted < items.length) ∧
    (items = [] → r.accepted = 0 ∧ r.status = Status.OK) := by
  obtain ⟨k, hk, hq, ha, hok, hbp⟩ := publishLoop_characterisation cap items q 0 mets
  have hacc : (publishLoop cap q items 0 mets).accepted = k := by
    rw [ha]; exact Nat.zero_add k
  refine ⟨rfl, ?_, ?_, ?_, ?_, ?_⟩
  · rw [hacc, hq]
  · rw [hacc]; exact hk
  · rw [hacc, hok]
  · rw [hacc]; exact hbp
  · intro hnil
    subst hnil
    simp [publishLoop]

/-- C1 witness: queue capacity 1, empty queue, a two-item batch: the first item is
enqueued and the response is (1, BACKPRESSURE) with the second item left out. -/
theorem publishBatch_accept_prefix_spec_witness :
    publishBatch 1 []
        (some [⟨"p", "h", "g0", some 0, ()⟩, ⟨"p", "h", "g1", some 1, ()⟩])
        ⟨0, 0, 0, 0, 0⟩
      = Except.ok (publishLoop 1 []
          [⟨"p", "h", "g0", some 0, ()⟩, ⟨"p", "h", "g1", some 1, ()⟩] 0 ⟨0, 0, 0, 0, 0⟩) ∧
    (publishLoop 1 [] [⟨"p", "h", "g0", some 0, ()⟩, ⟨"p", "h", "g1", some 1, ()⟩]
        0 ⟨0, 0, 0, 0, 0⟩).accepted = 1 ∧
    (publishLoop 1 [] [⟨"p", "h", "g0", some 0, ()⟩, ⟨"p", "h", "g1", some 1, ()⟩]
        0 ⟨0, 0, 0, 0, 0⟩).status = Status.BACKPRESSURE := by
  have h := publishBatch_accept_prefix_spec 1 []
    [⟨"p", "h", "g0", some 0, ()⟩, ⟨"p", "h", "g1", some 1, ()⟩] ⟨0, 0, 0, 0, 0⟩
  exact ⟨h.1, by decide, by decide⟩

/-- The body of the inner scan of Server.dispatcher (broker.go): with a snapshot
subs of the subscriber list and start the saved cursor, iterate i over
0 ..< subs.length, compute idx = (start + i) % len(subs) and attempt a
non-blocking send of msg into that buffer; on success the cursor becomes
(idx + 1) % len(subs) and delivered is set.  Note the Go break after a
successful send sits inside a select, so it exits only the select and the
for loop keeps scanning the remaining indices; the fold below, which visits
every index, is the faithful translation of that loop. -/
def dispatchOnce {mu : Type} (subBuf : Nat) (msg : TelemetryData mu)
    (subs : List (Subscriber mu)) (start : Nat) :
    List (Subscriber mu) × Nat × Bool :=
  (List.range subs.length).foldl
    (fun st i =>
      let idx := (start + i) % subs.length
      match st.1.get? idx with
      | some sel =>
        if sel.ch.length < subBuf then
          (st.1.set idx { sel with ch := sel.ch ++ [msg] },
            ((idx + 1) % subs.length, true))
        else st
      | none => st)
    (subs, (start, false))

/-- The dispatcher consuming a list of inbound records, in the regime where every
record is delivered on its first scan (always-ready subscribers, so the all-full
retry sleep of the source never fires): fold dispatchOnce over the records,
threading the updated buffers and cursor. -/
def dispatchRecords {mu : Type} (subBuf : Nat) (msgs : List (TelemetryData mu))
    (subs : List (Subscriber mu)) (start : Nat) :
    List (Subscriber mu) × Nat :=
  msgs.foldl
    (fun st m =>
      let r := dispatchOnce subBuf m st.1 st.2
      (r.1, r.2.1))
    (subs, start)

/-- A concrete wire record used by the concrete evaluations below. -/
def msg0 : TelemetryData Unit := ⟨"p", "h", "g0", some 0, ()⟩

/-- A second concrete wire record. -/
def msg1 : TelemetryData Unit := ⟨"p", "h", "g1", some 1, ()⟩

/-- C2: evaluating the dispatcher scan at two subscribers with empty buffers
(capacity 1) and one record: the record is enqueued into BOTH buffers, so the
number of subscriber buffers holding it is 2, not exactly one.  The break in the
Go source exits only the select, not the scan loop. -/
theorem dispatchOnce_duplicates_delivery :
    (dispatchOnce 1 msg0 [⟨"A", []⟩, ⟨"B", []⟩] 0).1 =
      [⟨"A", [msg0]⟩, ⟨"B", [msg0]⟩] ∧
    (dispatchOnce 1 msg0 [⟨"A", []⟩, ⟨"B", []⟩] 0).1.countP
        (fun sub => decide (msg0 ∈ sub.ch)) = 2 := by
  constructor
  · rfl
  · rfl

/-- C3: evaluating the dispatcher at N = 2 always-ready subscribers (buffer
capacity 10, never full) and K = 2 records: every record is copied to every
subscriber, so each subscriber ends with 2 records although
floor(K/N) = ceil(K/N) = 1; and the cursor, advanced once per copy, is back at
its starting value 0 instead of rotating. -/
theorem dispatchRecords_unfair_at_two :
    ((dispatchRecords 10 [msg0, msg1] [⟨"A", []⟩, ⟨"B", []⟩] 0).1.map
        (fun sub => sub.ch.length) = [2, 2]) ∧
    (dispatchRecords 10 [msg0, msg1] [⟨"A", []⟩, ⟨"B", []⟩] 0).2 = 0 ∧
    ¬ (2 = 2 / 2 ∨ 2 = (2 + 2 - 1) / 2) := by
  refine ⟨rfl, rfl, by decide⟩

/-- Server.removeSubscriber (broker.go): compact the subscriber slice in place,
keeping, in order, exactly the entries whose id differs from the argument, and
mirror the new length into the subscriber gauge (handled by the caller states
below). -/
def removeSubscriber {mu : Type} (id : String) (subs : List (Subscriber mu)) :
    List (Subscriber mu) :=
  subs.filter (fun sub => decide (sub.id ≠ id))

/-- The broker state touched by the Subscribe send-failure path: subscriber list,
inbound queue and metrics. -/
structure BrokerCore (mu : Type) where
  subs : List (Subscriber mu)
  inbound : List (TelemetryData mu)
  metrics : BrokerMetrics
deriving DecidableEq, Repr

/-- The send-failure branch of Server.Subscribe (broker.go): on stream.Send error
the subscriber removes itself, then one non-blocking requeue of the in-flight
record onto the inbound queue is attempted; a successful requeue increments
messages_requeued_total, while on a full queue the record is dropped on the
floor (the default branch of the select holds only a comment; no counter is
touched).  The subscriber gauge is set to the shrunken list length by
removeSubscriber. -/
def handleSendFailure {mu : Type} (queueCap : Nat) (subId : String)
    (msg : TelemetryData mu) (st : BrokerCore mu) : BrokerCore mu :=
  let subs2 := removeSubscriber subId st.subs
  let mets2 := { st.metrics with subscribersGauge := subs2.length }
  if st.inbound.length < queueCap then
    { subs := subs2, inbound := st.inbound ++ [msg],
      metrics := { mets2 with requeued := mets2.requeued + 1 } }
  else
    { subs := subs2, inbound := st.inbound, metrics := mets2 }

/-- A concrete broker state whose inbound queue (capacity 1) is full. -/
def fullState : BrokerCore Unit :=
  { subs := [⟨"E", []⟩, ⟨"K", []⟩], inbound := [msg1],
    metrics := ⟨1, 0, 0, 0, 2⟩ }

/-- C4 counterexample: with queue capacity 1 and the inbound queue already full,
the send-failure handling of subscriber E drops the in-flight record (the queue
is unchanged and the record is requeued nowhere) while every broker counter —
enqueued, delivered, backpressure events, requeued — is left exactly as it was:
the drop is not counted anywhere, contrary to the claim. -/
theorem subscribeFailure_drop_uncounted_cex :
    (handleSendFailure 1 "E" msg0 fullState).inbound = [msg1] ∧
    (handleSendFailure 1 "E" msg0 fullState).subs = [⟨"K", []⟩] ∧
    (handleSendFailure 1 "E" msg0 fullState).metrics.enqueued
      = fullState.metrics.enqueued ∧
    (handleSendFailure 1 "E" msg0 fullState).metrics.delivered
      = fullState.metrics.delivered ∧
    (handleSendFailure 1 "E" msg0 fullState).metrics.backpressureEvents
      = fullState.metrics.backpressureEvents ∧
    (handleSendFailure 1 "E" msg0 fullState).metrics.requeued
      = fullState.metrics.requeued := by
  refine ⟨rfl, rfl, rfl, rfl, rfl, rfl⟩

/-- C4 (amended): on every subscriber send failure the subscriber is unregistered
and exactly one non-blocking requeue is attempted: when the inbound queue has
room the record is appended to it and messages_requeued_total is incremented
(no other counter moves); when the inbound queue is full the record is silently
dropped and no counter at all is touched. -/
theorem subscribeFailure_requeue_spec {mu : Type} (queueCap : Nat) (subId : String)
    (msg : TelemetryData mu) (st : BrokerCore mu) :
    let st2 := handleSendFailure queueCap subId msg st
    st2.subs = removeSubscriber subId st.subs ∧
    (∀ sub ∈ st2.subs, sub.id ≠ subId) ∧
    (st.inbound.length < queueCap →
      st2.inbound = st.inbound ++ [msg] ∧
      st2.metrics.requeued = st.metrics.requeued + 1 ∧
      st2.metrics.enqueued = st.metrics.enqueued ∧
      st2.metrics.delivered = st.metrics.delivered ∧
      st2.metrics.backpressureEvents = st.metrics.backpressureEvents) ∧
    (¬ st.inbound.length < queueCap →
      st2.inbound = st.inbound ∧
      st2.metrics.enqueued = st.metrics.enqueued ∧
      st2.metrics.delivered = st.metrics.delivered ∧
      st2.metrics.backpressureEvents = st.metrics.backpressureEvents ∧
      st2.metrics.requeued = st.metrics.requeued) := by
  by_cases h : st.inbound.length < queueCap
  · refine ⟨by simp [handleSendFailure, if_pos h], ?_, ?_, ?_⟩
    · intro sub hsub
      simp only [handleSendFailure, if_pos h] at hsub
      have := List.mem_filter.mp hsub
      simpa using this.2
    · intro _
      simp [handleSendFailure, if_pos h]
    · intro hcon
      exact absurd h hcon
  · refine ⟨by simp [handleSendFailure, if_neg h], ?_, ?_, ?_⟩
    · intro sub hsub
      simp only [handleSendFailure, if_neg h] at hsub
      have := List.mem_filter.mp hsub
      simpa using this.2
    · intro hcon
      exact absurd hcon h
    · intro _
      simp [handleSendFailure, if_neg h]

/-- C4 witness: with queue capacity 5 the queue of fullState has room, so the
failing record is requeued at the tail and messages_requeued_total goes up by
one. -/
theorem subscribeFailure_requeue_spec_witness :
    (handleSendFailure 5 "E" msg0 fullState).inbound = [msg1, msg0] ∧
    (handleSendFailure 5 "E" msg0 fullState).metrics.requeued
      = fullState.metrics.requeued + 1 := by
  have h := (subscribeFailure_requeue_spec 5 "E" msg0 fullState).2.2.1 (by decide)
  exact ⟨h.1, h.2.1⟩

/-- C9: removeSubscriber removes every subscriber whose id equals the argument
and keeps the rest in order (the result is an id-free sublist of the input);
it is idempotent, and an id that is absent leaves the list unchanged — which is
what makes the double removal in the send-failure path of Subscribe (explicit
call followed by the deferred call) safe. -/
theorem removeSubscriber_idempotent_spec {mu : Type} (id : String)
    (subs : List (Subscriber mu)) :
    removeSubscriber id (removeSubscriber id subs) = removeSubscriber id subs ∧
    (∀ sub ∈ removeSubscriber id subs, sub.id ≠ id) ∧
    List.Sublist (removeSubscriber id subs) subs ∧
    ((∀ sub ∈ subs, sub.id ≠ id) → removeSubscriber id subs = subs) := by
  refine ⟨?_, ?_, ?_, ?_⟩
  · apply List.filter_eq_self.mpr
    intro sub hsub
    exact (List.mem_filter.mp hsub).2
  · intro sub hsub
    have := (List.mem_filter.mp hsub).2
    simpa using this
  · exact List.filter_sublist subs
  · intro hall
    apply List.filter_eq_self.mpr
    intro sub hsub
    simpa using hall sub hsub

/-- C9 witness: removing id A from a two-element list once or twice gives the
same one-element remainder, and removing an absent id changes nothing. -/
theorem removeSubscriber_idempotent_spec_witness :
    removeSubscriber "A" (removeSubscriber "A"
        ([⟨"A", []⟩, ⟨"B", []⟩] : List (Subscriber Unit)))
      = removeSubscriber "A" [⟨"A", []⟩, ⟨"B", []⟩] ∧
    removeSubscriber "C" ([⟨"A", []⟩, ⟨"B", []⟩] : List (Subscriber Unit))
      = [⟨"A", []⟩, ⟨"B", []⟩] := by
  have h := removeSubscriber_idempotent_spec "A"
    ([⟨"A", []⟩, ⟨"B", []⟩] : List (Subscriber Unit))
  have h2 := removeSubscriber_idempotent_spec "C"
    ([⟨"A", []⟩, ⟨"B", []⟩] : List (Subscriber Unit))
  exact ⟨h.1, h2.2.2.2 (by decide)⟩

/-- Leading- and trailing-whitespace removal on the character list of a string;
structural so that concrete instances reduce in the kernel. -/
def trimChars (l : List Char) : List Char :=
  ((l.dropWhile Char.isWhitespace).reverse.dropWhile Char.isWhitespace).reverse

/-- The stringsTrim helper of the collector (strings.TrimSpace). -/
def stringsTrim (s : String) : String := ⟨trimChars s.data⟩

/-- The storage-side record model.Telemetry: gpu id, timestamp (always present,
time.Time as an integer) and the opaque metric map. -/
structure Telemetry (mu : Type) where
  gpuId : String
  timestamp : Int
  metrics : mu
deriving DecidableEq, Repr

/-- The toModel conversion of the collector: GetTs().AsTime() of a nil protobuf
timestamp yields the zero instant, hence Option.getD 0. -/
def toModel {mu : Type} (m : TelemetryData mu) : Telemetry mu :=
  { gpuId := m.gpuId, timestamp := m.ts.getD 0, metrics := m.metrics }

/-- The validate function of the collector (cmd/collector): a message is valid
iff it is non-nil, its gpu id trimmed of whitespace is non-empty, and its
timestamp is present. -/
def validate {mu : Type} : Option (TelemetryData mu) → Bool
  | none => false
  | some m =>
    if stringsTrim m.gpuId = "" then false
    else if m.ts = none then false
    else true

/-- The collector-loop state: the in-memory batch, the contents of the bounded
jobs channel (each entry one flush hand-off on its way to storage), and the
collector counters messages_received_total, messages_batched_total,
messages_dropped_invalid_total, plus the backlog gauge. -/
structure CollectorState (mu : Type) where
  batch : List (Telemetry mu)
  jobs : List (List (Telemetry mu))
  received : Nat
  batched : Nat
  dropped : Nat
  backlogGauge : Nat
deriving DecidableEq, Repr

/-- The flush closure of runCollectorLoop: an empty batch is a no-op; otherwise
copy the batch into a fresh job, clear the batch, zero the backlog gauge and
hand the job to the jobs channel (the source blocks until the channel accepts,
so the job always lands at the tail). -/
def flushBatch {mu : Type} (st : CollectorState mu) : CollectorState mu :=
  if st.batch.isEmpty then st
  else { st with batch := [], backlogGauge := 0, jobs := st.jobs ++ [st.batch] }

/-- The stream.Recv branch of runCollectorLoop for one received message:
count the receipt; drop and count an invalid message; otherwise convert, append
to the batch, count it, update the backlog gauge and size-flush when the batch
has reached batchSize. -/
def recvStep {mu : Type} (batchSize : Nat) (st : CollectorState mu)
    (msg : Option (TelemetryData mu)) : CollectorState mu :=
  let st1 := { st with received := st.received + 1 }
  if validate msg then
    match msg with
    | some m =>
      let t := toModel m
      let batch2 := st1.batch ++ [t]
      let st2 :=
        { st1 with batch := batch2, batched := st1.batched + 1, backlogGauge := batch2.length }
      if batchSize ≤ batch2.length then flushBatch st2 else st2
    | none => st1
  else
    { st1 with dropped := st1.dropped + 1 }

/-- C5: a received message is appended to the batch (and thence handed onward to
storage through the jobs channel) exactly when it is valid — non-nil, trimmed
gpu id non-empty, timestamp present.  An invalid message increments
messages_dropped_invalid_total, occupies no batch space and never reaches a
job; a valid one leaves the dropped counter alone, increments
messages_batched_total, and adds exactly its converted record to the in-flight
content (jobs flattened plus current batch). -/
theorem collector_validate_spec {mu : Type} (batchSize : Nat)
    (st : CollectorState mu) (msg : Option (TelemetryData mu)) :
    (validate msg = true ↔
      ∃ m, msg = some m ∧ stringsTrim m.gpuId ≠ "" ∧ m.ts ≠ none) ∧
    (validate msg = false →
      recvStep batchSize st msg
        = { st with received := st.received + 1, dropped := st.dropped + 1 }) ∧
    (∀ m, msg = some m → validate msg = true →
      (recvStep batchSize st msg).jobs.flatten ++ (recvStep batchSize st msg).batch
          = st.jobs.flatten ++ (st.batch ++ [toModel m]) ∧
      (recvStep batchSize st msg).dropped = st.dropped ∧
      (recvStep batchSize st msg).batched = st.batched + 1) := by
  refine ⟨?_, ?_, ?_⟩
  · cases msg with
    | none => simp [validate]
    | some m =>
      simp only [validate]
      by_cases h1 : stringsTrim m.gpuId = ""
      · simp [h1]
      · by_cases h2 : m.ts = none
        · simp [h1, h2]
        · simp [h1, h2]
  · intro hinv
    simp [recvStep, hinv]
  · intro m hm hv
    subst hm
    have hne : (st.batch ++ [toModel m]) ≠ [] := by simp
    by_cases hflush : batchSize ≤ (st.batch ++ [toModel m]).length
    · simp only [recvStep, hv, if_true, if_pos hflush]
      constructor
      · simp [flushBatch, hne]
      · simp [flushBatch, hne]
    · simp only [recvStep, hv, if_true, if_neg hflush]
      simp

/-- C5 witness: with batch size 2 and an empty starting state, a valid message
is batched (dropped counter untouched) and a nil message is dropped. -/
theorem collector_validate_spec_witness :
    validate (some msg0) = true ∧
    (recvStep 2 (⟨[], [], 0, 0, 0, 0⟩ : CollectorState Unit) (some msg0)).batch
      = [toModel msg0] ∧
    (recvStep 2 (⟨[], [], 0, 0, 0, 0⟩ : CollectorState Unit) (some msg0)).dropped = 0 ∧
    recvStep 2 (⟨[], [], 0, 0, 0, 0⟩ : CollectorState Unit) (none : Option (TelemetryData Unit))
      = ⟨[], [], 1, 0, 1, 0⟩ := by
  have h := collector_validate_spec 2 (⟨[], [], 0, 0, 0, 0⟩ : CollectorState Unit)
    (some msg0)
  have hv : validate (some msg0) = true := by decide
  have h2 := collector_validate_spec 2 (⟨[], [], 0, 0, 0, 0⟩ : CollectorState Unit)
    (none : Option (TelemetryData Unit))
  refine ⟨hv, by decide, (h.2.2 msg0 rfl hv).2.1, ?_⟩
  have hinv : validate (none : Option (TelemetryData Unit)) = false := by decide
  exact h2.2.1 hinv

/-- The comparison handed by MemoryStore.SaveTelemetry to sort.SliceStable is the
strict s[i].Timestamp.Before(s[j].Timestamp); a stable sort under that strict
order is exactly a stable merge sort under the corresponding reflexive order,
which is this Boolean predicate. -/
def tsLe {mu : Type} (a b : Telemetry mu) : Bool :=
  decide (a.timestamp ≤ b.timestamp)

theorem tsLe_trans {mu : Type} :
    ∀ a b c : Telemetry mu, tsLe a b = true → tsLe b c = true → tsLe a c = true := by
  intro a b c hab hbc
  simp only [tsLe, decide_eq_true_eq] at *
  exact le_trans hab hbc

theorem tsLe_total {mu : Type} :
    ∀ a b : Telemetry mu, (tsLe a b || tsLe b a) = true := by
  intro a b
  simp only [tsLe, Bool.or_eq_true, decide_eq_true_eq]
  exact Int.le_total a.timestamp b.timestamp

/-- The data map of MemoryStore (storage/memory.go): gpu id to the stored
sequence; a key never written holds the empty sequence, as a read of a missing
Go map key yields the nil slice. -/
def MemoryStore (mu : Type) : Type := String → List (Telemetry mu)

/-- NewMemoryStore: an empty map. -/
def emptyStore {mu : Type} : MemoryStore mu := fun _ => []

/-- MemoryStore.SaveTelemetry: append the record to its gpu sequence, re-sort
that sequence stably by timestamp, store it back, and return the nil error. -/
def saveTelemetry {mu : Type} (m : MemoryStore mu) (t : Telemetry mu) :
    MemoryStore mu × Option String :=
  (fun g => if g = t.gpuId then ((m t.gpuId) ++ [t]).mergeSort tsLe else m g, none)

/-- MemoryStore.QueryTelemetry: with both bounds absent, a copy of the stored
sequence; otherwise keep exactly the records not before start (when given) and
not after the end bound (when given). -/
def queryTelemetry {mu : Type} (m : MemoryStore mu) (gpuID : String)
    (start endT : Option Int) : List (Telemetry mu) :=
  match start, endT with
  | none, none => m gpuID
  | _, _ =>
    (m gpuID).filter (fun it =>
      !(match start with
        | some s => decide (it.timestamp < s)
        | none => false) &&
      !(match endT with
        | some e => decide (e < it.timestamp)
        | none => false))

/-- A sequence of SaveTelemetry calls against a fresh store, in order. -/
def saveAll {mu : Type} (rs : List (Telemetry mu)) : MemoryStore mu :=
  rs.foldl (fun m t => (saveTelemetry m t).1) emptyStore

theorem mergeSort_ts_sorted {mu : Type} (l : List (Telemetry mu)) :
    (l.mergeSort tsLe).Pairwise (fun a b => a.timestamp ≤ b.timestamp) := by
  have h := List.sorted_mergeSort tsLe_trans tsLe_total l
  exact h.imp (fun hab => by simpa [tsLe] using hab)

/-- Stability at one timestamp: the stable sort leaves the subsequence of
records carrying any fixed timestamp untouched. -/
theorem mergeSort_ts_filter_eq {mu : Type} (T : Int) (l : List (Telemetry mu)) :
    (l.mergeSort tsLe).filter (fun t => decide (t.timestamp = T))
      = l.filter (fun t => decide (t.timestamp = T)) := by
  have hpw : (l.filter (fun t => decide (t.timestamp = T))).Pairwise
      (fun a b => tsLe a b = true) := by
    have hall : ∀ t ∈ l.filter (fun t => decide (t.timestamp = T)),
        t.timestamp = T := by
      intro t ht
      have := (List.mem_filter.mp ht).2
      simpa using this
    refine List.pairwise_iff_forall_sublist.mpr ?_
    intro a b hab
    have ha : a ∈ l.filter (fun t => decide (t.timestamp = T)) :=
      hab.subset (by simp)
    have hb : b ∈ l.filter (fun t => decide (t.timestamp = T)) :=
      hab.subset (by simp)
    simp [tsLe, hall a ha, hall b hb]
  have hsub : List.Sublist (l.filter (fun t => decide (t.timestamp = T)))
      (l.mergeSort tsLe) :=
    List.sublist_mergeSort tsLe_trans tsLe_total hpw (List.filter_sublist l)
  have hsub2 : List.Sublist (l.filter (fun t => decide (t.timestamp = T)))
      ((l.mergeSort tsLe).filter (fun t => decide (t.timestamp = T))) := by
    have h2 := List.Sublist.filter (fun t => decide (t.timestamp = T)) hsub
    simpa [List.filter_filter] using h2
  have hperm : List.Perm ((l.mergeSort tsLe).filter (fun t => decide (t.timestamp = T)))
      (l.filter (fun t => decide (t.timestamp = T))) :=
    (List.mergeSort_perm l tsLe).filter _
  exact (List.Sublist.eq_of_length hsub2 hperm.length_eq.symm).symm

theorem foldSave_sorted {mu : Type} :
    ∀ (rs : List (Telemetry mu)) (m : MemoryStore mu),
    (∀ g, ((m g).Pairwise fun a b => a.timestamp ≤ b.timestamp)) →
    ∀ g, (((rs.foldl (fun m t => (saveTelemetry m t).1) m) g).Pairwise
      fun a b => a.timestamp ≤ b.timestamp) := by
  intro rs
  induction rs with
  | nil => intro m hm g; exact hm g
  | cons t rest ih =>
    intro m hm g
    refine ih (saveTelemetry m t).1 ?_ g
    intro g2
    by_cases hg : g2 = t.gpuId
    · simp only [saveTelemetry, if_pos hg]
      exact mergeSort_ts_sorted _
    · simp only [saveTelemetry, if_neg hg]
      exact hm g2

theorem foldSave_filter {mu : Type} :
    ∀ (rs : List (Telemetry mu)) (m : MemoryStore mu) (g : String) (T : Int),
    ((rs.foldl (fun m t => (saveTelemetry m t).1) m) g).filter
        (fun t => decide (t.timestamp = T))
      = (m g).filter (fun t => decide (t.timestamp = T))
          ++ rs.filter (fun t => decide (t.gpuId = g ∧ t.timestamp = T)) := by
  intro rs
  induction rs with
  | nil => intro m g T; simp
  | cons t rest ih =>
    intro m g T
    rw [List.foldl_cons, ih]
    by_cases hg : t.gpuId = g
    · have hsel : (saveTelemetry m t).1 g = ((m t.gpuId) ++ [t]).mergeSort tsLe := by
        simp [saveTelemetry, hg.symm]
      rw [hsel, mergeSort_ts_filter_eq, hg]
      by_cases hts : t.timestamp = T
      · simp [List.filter_append, hts, hg]
      · simp [List.filter_append, hts, hg]
    · have hg2 : ¬ g = t.gpuId := fun h => hg h.symm
      have hsel : (saveTelemetry m t).1 g = m g := by
        simp [saveTelemetry, hg2]
      rw [hsel]
      simp [hg]

/-- C6: after any sequence of SaveTelemetry calls against a fresh in-memory
store, every per-gpu sequence is ascending by timestamp; consequently
QueryTelemetry answers every window for every gpu in ascending timestamp
order; and, by stability of the insertion sort, the records carrying any fixed
timestamp appear exactly in insertion order. -/
theorem memoryStore_sorted_spec {mu : Type} (rs : List (Telemetry mu))
    (gpu : String) (start endT : Option Int) (T : Int) :
    ((saveAll rs) gpu).Pairwise (fun a b => a.timestamp ≤ b.timestamp) ∧
    (queryTelemetry (saveAll rs) gpu start endT).Pairwise
      (fun a b => a.timestamp ≤ b.timestamp) ∧
    ((saveAll rs) gpu).filter (fun t => decide (t.timestamp = T))
      = rs.filter (fun t => decide (t.gpuId = gpu ∧ t.timestamp = T)) := by
  have hsorted : ∀ g, (((saveAll rs) g).Pairwise fun a b => a.timestamp ≤ b.timestamp) :=
    foldSave_sorted rs emptyStore (fun _ => List.Pairwise.nil)
  refine ⟨hsorted gpu, ?_, ?_⟩
  · cases start with
    | none =>
      cases endT with
      | none => exact hsorted gpu
      | some e =>
        exact List.Pairwise.sublist (List.filter_sublist _) (hsorted gpu)
    | some s =>
      cases endT with
      | none => exact List.Pairwise.sublist (List.filter_sublist _) (hsorted gpu)
      | some e => exact List.Pairwise.sublist (List.filter_sublist _) (hsorted gpu)
  · have h := foldSave_filter rs emptyStore gpu T
    simpa [emptyStore] using h

/-- C7: the window of QueryTelemetry is inclusive on both sides and a missing
bound is unbounded on that side: a record is in the result exactly when it is
stored under the gpu and its timestamp is at least every given start bound and
at most every given end bound; in particular timestamps equal to a bound are
kept. -/
theorem queryTelemetry_window_spec {mu : Type} (m : MemoryStore mu) (gpu : String)
    (start endT : Option Int) (t : Telemetry mu) :
    t ∈ queryTelemetry m gpu start endT ↔
      t ∈ m gpu ∧ (∀ s, start = some s → s ≤ t.timestamp) ∧
        (∀ e, endT = some e → t.timestamp ≤ e) := by
  cases start with
  | none =>
    cases endT with
    | none => simp [queryTelemetry]
    | some e =>
      simp [queryTelemetry, List.mem_filter, Int.not_lt]
  | some s =>
    cases endT with
    | none =>
      simp [queryTelemetry, List.mem_filter, Int.not_lt]
    | some e =>
      simp only [queryTelemetry, List.mem_filter, Bool.and_eq_true, Bool.not_eq_true']
      constructor
      · rintro ⟨hm, h1, h2⟩
        refine ⟨hm, ?_, ?_⟩
        · rintro s2 ⟨rfl⟩
          simpa [Int.not_lt] using of_decide_eq_false h1
        · rintro e2 ⟨rfl⟩
          simpa [Int.not_lt] using of_decide_eq_false h2
      · rintro ⟨hm, h1, h2⟩
        refine ⟨hm, ?_, ?_⟩
        · simpa [Int.not_lt] using h1 s rfl
        · simpa [Int.not_lt] using h2 e rfl

/-- A stored record at timestamp 5. -/
def t5 : Telemetry Unit := ⟨"g1", 5, ()⟩

/-- A one-record store for the C7 witness. -/
def store5 : MemoryStore Unit := fun g => if g = "g1" then [t5] else []

/-- C7 witness: the window with both bounds equal to the timestamp of the one
stored record keeps that record. -/
theorem queryTelemetry_window_spec_witness :
    t5 ∈ queryTelemetry store5 "g1" (some 5) (some 5) := by
  refine (queryTelemetry_window_spec store5 "g1" (some 5) (some 5) t5).mpr
    ⟨?_, ?_, ?_⟩
  · show t5 ∈ store5 "g1"
    simp [store5]
  · rintro s ⟨rfl⟩; decide
  · rintro e ⟨rfl⟩; decide

/-- One flush worker of runCollectorLoop processing one job: write the records
one by one through the store; a failed save increments flush_errors_total, a
successful one increments messages_flushed_total; the job is never aborted. -/
def workerProcess {mu σ : Type} (save : σ → Telemetry mu → σ × Option String) :
    σ → List (Telemetry mu) → Nat → Nat → σ × Nat × Nat
  | st, [], flushErrors, flushed => (st, flushErrors, flushed)
  | st, it :: rest, flushErrors, flushed =>
    match save st it with
    | (st2, some _) => workerProcess save st2 rest (flushErrors + 1) flushed
    | (st2, none) => workerProcess save st2 rest flushErrors (flushed + 1)

theorem workerProcess_memory {mu : Type} :
    ∀ (items : List (Telemetry mu)) (m : MemoryStore mu) (fe fl : Nat),
    (workerProcess saveTelemetry m items fe fl).2.1 = fe ∧
    (workerProcess saveTelemetry m items fe fl).2.2 = fl + items.length := by
  intro items
  induction items with
  | nil => intro m fe fl; simp [workerProcess]
  | cons it rest ih =>
    intro m fe fl
    have hred : workerProcess saveTelemetry m (it :: rest) fe fl
        = workerProcess saveTelemetry (saveTelemetry m it).1 rest fe (fl + 1) := rfl
    rw [hred]
    obtain ⟨h1, h2⟩ := ih (saveTelemetry m it).1 fe (fl + 1)
    refine ⟨h1, ?_⟩
    rw [h2]
    simp only [List.length_cons]
    omega

/-- C10: the in-memory SaveTelemetry returns the nil error on every input, so a
flush worker running against the memory store can never take the per-record
error path: after any job, flush_errors_total is exactly where it started and
messages_flushed_total has grown by the job size. -/
theorem memorySave_never_errors_spec {mu : Type} (m : MemoryStore mu)
    (t : Telemetry mu) (items : List (Telemetry mu)) (fe fl : Nat) :
    (saveTelemetry m t).2 = none ∧
    (workerProcess saveTelemetry m items fe fl).2.1 = fe ∧
    (workerProcess saveTelemetry m items fe fl).2.2 = fl + items.length := by
  obtain ⟨h1, h2⟩ := workerProcess_memory items m fe fl
  exact ⟨rfl, h1, h2⟩

/-- strings.Split on the single separator "/", over character lists (Split of
the empty string yields one empty field, as in Go). -/
def splitSlash (l : List Char) : List (List Char) :=
  match l with
  | [] => [[]]
  | c :: rest =>
    let r := splitSlash rest
    if c = '/' then [] :: r
    else
      match r with
      | [] => [[c]]
      | x :: xs => (c :: x) :: xs

/-- Character-list test that the first argument opens the second. -/
def hasPfx : List Char → List Char → Bool
  | [], _ => true
  | _ :: _, [] => false
  | p :: ps, c :: cs => (p = c) && hasPfx ps cs

/-- The route string trimmed from the path by the telemetry handler. -/
def apiGpusRoute : List Char := "/api/v1/gpus/".data

/-- strings.TrimPrefix("/api/v1/gpus/") followed by strings.Split(p, "/") of the
telemetry handler in cmd/api-gateway/server.go. -/
def telemetryPathRaw (path : String) : List (List Char) :=
  splitSlash
    (if hasPfx apiGpusRoute path.data then path.data.drop apiGpusRoute.length
     else path.data)

/-- The path shape the handler accepts: exactly two segments, the second equal
to telemetry, the first non-empty — i.e. /api/v1/gpus/{non-empty}/telemetry.
(The Go source tests the negation and answers 404.) -/
def telemetryPathOk (path : String) : Prop :=
  (telemetryPathRaw path).length = 2 ∧
  (telemetryPathRaw path).getD 1 [] = "telemetry".data ∧
  (telemetryPathRaw path).getD 0 [] ≠ []

instance (path : String) : Decidable (telemetryPathOk path) := by
  unfold telemetryPathOk
  infer_instance

/-- One query-parameter block of the handler: an empty parameter leaves the
bound pointer nil (some none); a parameter that parses becomes a present bound;
a parse failure is the 400 path (none). -/
def parseTimeParam (parse : String → Option Int) (s : String) : Option (Option Int) :=
  if s = "" then some none
  else
    match parse s with
    | some t => some (some t)
    | none => none

/-- HTTP outcomes of the telemetry read endpoint; ok carries the decoded body. -/
inductive ApiResponse (mu : Type) where
  | notFound
  | badRequest
  | internalError
  | ok (items : List (Telemetry mu))
deriving DecidableEq, Repr

/-- The GET /api/v1/gpus/{id}/telemetry handler of cmd/api-gateway/server.go
(after its method check): trim the route, split the remainder, 404 on a path of
the wrong shape; then parse start_time and end_time (RFC 3339 parsing is the
parameter parse), 400 on the first failure; then query the store, 500 on a
storage error and 200 with the returned records otherwise. -/
def handleGpuTelemetry {mu : Type} (parse : String → Option Int)
    (query : String → Option Int → Option Int → Except String (List (Telemetry mu)))
    (path startParam endParam : String) : ApiResponse mu :=
  if telemetryPathOk path then
    let gpuID : String := ⟨(telemetryPathRaw path).getD 0 []⟩
    match parseTimeParam parse startParam with
    | none => ApiResponse.badRequest
    | some startPtr =>
      match parseTimeParam parse endParam with
      | none => ApiResponse.badRequest
      | some endPtr =>
        match query gpuID startPtr endPtr with
        | Except.error _ => ApiResponse.internalError
        | Except.ok items => ApiResponse.ok items
  else ApiResponse.notFound

/-- A parser rejecting every string: on it, any non-empty time parameter is
malformed. -/
def parse0 : String → Option Int := fun _ => none

/-- A store query that always succeeds with no records. -/
def query0 : String → Option Int → Option Int → Except String (List (Telemetry Unit)) :=
  fun _ _ _ => Except.ok []

/-- C8 counterexample: a GET whose path /api/v1/gpus/x misses the telemetry
segment AND whose start_time is non-empty and malformed is answered 404 by the
handler (the path test runs first), not 400 as the claim orders the checks. -/
theorem handler_path_before_time_cex :
    handleGpuTelemetry parse0 query0 "/api/v1/gpus/x" "2026-13-99" ""
      = ApiResponse.notFound ∧
    handleGpuTelemetry parse0 query0 "/api/v1/gpus/x" "2026-13-99" ""
      ≠ ApiResponse.badRequest := by
  refine ⟨by decide, by decide⟩

/-- C8 (amended): the handler decides in this order — a path not of the shape
/api/v1/gpus/{non-empty}/telemetry is 404; otherwise a non-empty start_time or
end_time that fails to parse as RFC 3339 is 400 (an empty parameter means an
absent bound); otherwise a storage error is 500; otherwise 200 with exactly the
records the store returned. -/
theorem handler_status_spec {mu : Type} (parse : String → Option Int)
    (query : String → Option Int → Option Int → Except String (List (Telemetry mu)))
    (path startParam endParam : String) :
    (∀ s, parseTimeParam parse s = none ↔ s ≠ "" ∧ parse s = none) ∧
    (¬ telemetryPathOk path →
      handleGpuTelemetry parse query path startParam endParam = ApiResponse.notFound) ∧
    (telemetryPathOk path → parseTimeParam parse startParam = none →
      handleGpuTelemetry parse query path startParam endParam = ApiResponse.badRequest) ∧
    (telemetryPathOk path → ∀ sp, parseTimeParam parse startParam = some sp →
      parseTimeParam parse endParam = none →
      handleGpuTelemetry parse query path startParam endParam = ApiResponse.badRequest) ∧
    (telemetryPathOk path → ∀ sp ep, parseTimeParam parse startParam = some sp →
      parseTimeParam parse endParam = some ep →
      ∀ msg, query ⟨(telemetryPathRaw path).getD 0 []⟩ sp ep = Except.error msg →
      handleGpuTelemetry parse query path startParam endParam = ApiResponse.internalError) ∧
    (telemetryPathOk path → ∀ sp ep, parseTimeParam parse startParam = some sp →
      parseTimeParam parse endParam = some ep →
      ∀ items, query ⟨(telemetryPathRaw path).getD 0 []⟩ sp ep = Except.ok items →
      handleGpuTelemetry parse query path startParam endParam = ApiResponse.ok items) := by
  refine ⟨?_, ?_, ?_, ?_, ?_, ?_⟩
  · intro s
    unfold parseTimeParam
    by_cases hs : s = ""
    · simp [hs]
    · cases hp : parse s with
      | none => simp [hs, hp]
      | some t => simp [hs, hp]
  · intro hpath
    simp [handleGpuTelemetry, if_neg hpath]
  · intro hpath hstart
    simp [handleGpuTelemetry, if_pos hpath, hstart]
  · intro hpath sp hsp hend
    simp [handleGpuTelemetry, if_pos hpath, hsp, hend]
  · intro hpath sp ep hsp hep msg hq
    simp only [handleGpuTelemetry, if_pos hpath, hsp, hep]
    rw [hq]
  · intro hpath sp ep hsp hep items hq
    simp only [handleGpuTelemetry, if_pos hpath, hsp, hep]
    rw [hq]

/-- C8 witness: a well-shaped path with empty time parameters reaches the store
and answers 200 with its records; and on the rejecting parser a malformed
end_time on a well-shaped path is 400. -/
theorem handler_status_spec_witness :
    handleGpuTelemetry parse0 query0 "/api/v1/gpus/x/telemetry" "" ""
      = ApiResponse.ok [] ∧
    handleGpuTelemetry parse0 query0 "/api/v1/gpus/x/telemetry" "" "bad"
      = ApiResponse.badRequest := by
  have h := handler_status_spec parse0 query0 "/api/v1/gpus/x/telemetry" "" ""
  have h2 := handler_status_spec parse0 query0 "/api/v1/gpus/x/telemetry" "" "bad"
  constructor
  · exact h.2.2.2.2.2 (by decide) none none (by decide) (by decide) [] rfl
  · exact h2.2.2.2.1 (by decide) none (by decide) (by decide)

end GpuTelemetry
